import Mathlib

/-!
Verification development for the NBA player-matchup backend.

Numbers are modelled by `ℚ` (the code's floating-point values), calendar
dates and datetimes by `ℤ` (day / timestamp ordinals), and Python dicts by
insertion-ordered association lists.  Python's stable `list.sort` /
`sorted` is modelled by `List.insertionSort`, which is stable for a total
preorder and therefore extensionally equal to any stable sort.
-/

namespace NBA

/-- `PositionGroup` (src/backend/app/models.py). -/
inductive PositionGroup where
  | guards
  | forwards
  | centers
deriving DecidableEq, BEq, Repr

/-- `MatchupTier` (src/backend/app/models.py). -/
inductive MatchupTier where
  | green
  | yellow
  | orange
  | red
deriving DecidableEq, BEq, Repr

/-- `Window` (src/backend/app/models.py). -/
inductive Window where
  | season
  | last10
deriving DecidableEq, BEq, Repr

/-- `Window.value` strings ("season" / "last10"). -/
def Window.value : Window → String
  | .season => "season"
  | .last10 => "last10"

/-- `SUPPORTED_STATS` (src/backend/app/utils.py). -/
def SUPPORTED_STATS : List String := ["PTS", "REB", "AST", "FG3M", "STL", "BLK"]

/-- `to_tier` (src/backend/app/utils.py). -/
def to_tier (rank : ℕ) : MatchupTier :=
  if rank ≤ 6 then .green
  else if rank ≤ 12 then .yellow
  else if rank ≤ 20 then .orange
  else .red

/-- `normalize_score` (src/backend/app/utils.py). -/
def normalize_score (value min_value max_value : ℚ) : ℚ :=
  if max_value ≤ min_value then 50
  else (value - min_value) / (max_value - min_value) * 100

/-- Python `round(x, 2)`: round half to even at the second decimal. -/
def roundHalfEven (q : ℚ) : ℤ :=
  if q - ⌊q⌋ < 1/2 then ⌊q⌋
  else if 1/2 < q - ⌊q⌋ then ⌊q⌋ + 1
  else if Even ⌊q⌋ then ⌊q⌋ else ⌊q⌋ + 1

/-- `round(x, 2)` as a rational. -/
def round2 (q : ℚ) : ℚ := (roundHalfEven (100 * q) : ℚ) / 100

/-- `TeamGroupStat` (src/backend/app/services/scoring.py): nested dict
`team → group → stat → allowed value`, as insertion-ordered assoc lists. -/
abbrev TeamGroupStat := List (String × List (PositionGroup × List (String × ℚ)))

/-- `team_group_stats.get(team, {}).get(group, {}).get(stat, 0.0)` in
`build_rank_tables` (src/backend/app/services/scoring.py). -/
def statLookup (tgs : TeamGroupStat) (team : String) (group : PositionGroup)
    (stat : String) : ℚ :=
  (((((tgs.lookup team).getD []).lookup group).getD []).lookup stat).getD 0

/-- The comparison realised by `values.sort(key=lambda item: item[1],
reverse=True)` in `build_rank_tables`: `a` may precede `b` iff `b.2 ≤ a.2`.
Python's sort is stable, which `List.insertionSort` with this total
preorder reproduces exactly. -/
def rankLE (a b : String × ℚ) : Prop := b.2 ≤ a.2

instance : DecidableRel rankLE := fun a b => inferInstanceAs (Decidable (b.2 ≤ a.2))

instance : IsTotal (String × ℚ) rankLE := ⟨fun a b => le_total b.2 a.2⟩

instance : IsTrans (String × ℚ) rankLE := ⟨fun _ _ _ hab hbc => le_trans hbc hab⟩

/-- One `(group, stat)` iteration of `build_rank_tables`: pair every listed
team with its allowed value, stable-sort descending by value, then assign
1-based ranks via `enumerate(values, start=1)`. -/
def rankRow (tgs : TeamGroupStat) (teams : List String) (group : PositionGroup)
    (stat : String) : List (String × ℕ) :=
  (List.enumFrom 1
      (List.insertionSort rankLE
        (teams.map (fun team => (team, statLookup tgs team group stat))))).map
    (fun p => (p.2.1, p.1))

/-- `build_rank_tables` (src/backend/app/services/scoring.py), as the lookup
function `team → group → stat → rank` denoted by its nested-defaultdict
result: a `(team, group, stat)` cell is written iff `stat` is a supported
stat (the code loops over all three groups and `SUPPORTED_STATS`) and
`team` occurs in the ranked row for that `(group, stat)`. -/
def build_rank_tables (tgs : TeamGroupStat) (teams : List String)
    (team : String) (group : PositionGroup) (stat : String) : Option ℕ :=
  if stat ∈ SUPPORTED_STATS then (rankRow tgs teams group stat).lookup team else none

/-- Per-team environment metrics dict `{"def_rating": _, "pace": _}` built by
`NBADataService._build_team_environment_metrics`; both keys are always
written together, so a team's entry is a pair `(def_rating, pace)`. -/
abbrev TeamMetrics := List (String × (ℚ × ℚ))

/-- `team_metrics.get(team, {}).get("def_rating", 0.0)`. -/
def metricDef (team_metrics : TeamMetrics) (team : String) : ℚ :=
  ((team_metrics.lookup team).map Prod.fst).getD 0

/-- `team_metrics.get(team, {}).get("pace", 0.0)`. -/
def metricPace (team_metrics : TeamMetrics) (team : String) : ℚ :=
  ((team_metrics.lookup team).map Prod.snd).getD 0

/-- The `defense_values` list in `build_environment_scores`. -/
def defenseValues (team_metrics : TeamMetrics) (teams : List String) : List ℚ :=
  teams.map (fun team => metricDef team_metrics team)

/-- The `pace_values` list in `build_environment_scores`. -/
def paceValues (team_metrics : TeamMetrics) (teams : List String) : List ℚ :=
  teams.map (fun team => metricPace team_metrics team)

/-- `build_environment_scores` (src/backend/app/services/scoring.py):
`min(xs) if xs else 0.0` is `xs.min?.getD 0`, and the composite score is
`round(0.6 * def_score + 0.4 * pace_score, 2)`. -/
def build_environment_scores (team_metrics : TeamMetrics) (teams : List String) :
    List (String × ℚ) :=
  let min_def := (defenseValues team_metrics teams).min?.getD 0
  let max_def := (defenseValues team_metrics teams).max?.getD 0
  let min_pace := (paceValues team_metrics teams).min?.getD 0
  let max_pace := (paceValues team_metrics teams).max?.getD 0
  teams.map (fun team =>
    (team,
      round2 ((0.6 : ℚ) * normalize_score (metricDef team_metrics team) min_def max_def
        + (0.4 : ℚ) * normalize_score (metricPace team_metrics team) min_pace max_pace)))

/-- The rank defaulting in `MatchupService._compute_matchups`:
`int(ranks.get(opponent, {}).get(group, {}).get(stat_key, 30))`. -/
def playerStatRank (ranks : String → PositionGroup → String → Option ℕ)
    (opponent : String) (group : PositionGroup) (stat : String) : ℕ :=
  (ranks opponent group stat).getD 30

/-- The tier paired with the defaulted rank in `_compute_matchups`:
`to_tier(rank)`. -/
def playerStatTier (ranks : String → PositionGroup → String → Option ℕ)
    (opponent : String) (group : PositionGroup) (stat : String) : MatchupTier :=
  to_tier (playerStatRank ranks opponent group stat)

/-- Python dict assignment `d[k] = v`: replace the value at an existing key
in place, else append the new key at the end (insertion order). -/
def assocUpdate {κ ν : Type} [DecidableEq κ] : List (κ × ν) → κ → ν → List (κ × ν)
  | [], k, v => [(k, v)]
  | (k0, v0) :: rest, k, v =>
    if k0 = k then (k, v) :: rest else (k0, v0) :: assocUpdate rest k v

/-- `Game` (src/backend/app/models.py). -/
structure Game where
  game_id : String
  start_time_utc : Option String
  away_team : String
  home_team : String
deriving DecidableEq, Repr

/-- Python truthiness of an optional string (`None` and `""` are falsy). -/
def truthyStr : Option String → Bool
  | none => false
  | some s => !s.isEmpty

/-- One step of the dedupe loop in
`NBADataService._dedupe_games_by_matchup`: keyed by the `(away, home)`
pair, an existing entry is replaced when
`(not existing.start_time_utc and game.start_time_utc) or
game.game_id < existing.game_id`. -/
def dedupeStep (acc : List ((String × String) × Game)) (g : Game) :
    List ((String × String) × Game) :=
  match acc.lookup (g.away_team, g.home_team) with
  | none => assocUpdate acc (g.away_team, g.home_team) g
  | some existing =>
    if (!truthyStr existing.start_time_utc && truthyStr g.start_time_utc)
        || decide (g.game_id < existing.game_id) then
      assocUpdate acc (g.away_team, g.home_team) g
    else acc

/-- Key comparison for the final `sorted(...)` in `_dedupe_games_by_matchup`:
ascending lexicographic order on
`(start_time_utc or "", away_team, home_team, game_id)`. -/
def gameKeyLT (a b : Game) : Prop :=
  a.start_time_utc.getD "" < b.start_time_utc.getD ""
  ∨ (a.start_time_utc.getD "" = b.start_time_utc.getD ""
    ∧ (a.away_team < b.away_team
      ∨ (a.away_team = b.away_team
        ∧ (a.home_team < b.home_team
          ∨ (a.home_team = b.home_team ∧ a.game_id < b.game_id)))))

instance : DecidableRel gameKeyLT := fun a b => by
  unfold gameKeyLT
  infer_instance

/-- `a` may precede `b` in the final sort iff `b`'s key is not smaller. -/
def gameLE (a b : Game) : Prop := ¬ gameKeyLT b a

instance : DecidableRel gameLE := fun a b =>
  inferInstanceAs (Decidable (¬ gameKeyLT b a))

/-- `NBADataService._dedupe_games_by_matchup`
(src/backend/app/services/nba_client.py): dedupe by `(away, home)` in dict
insertion order, then sort the kept rows by
`(start_time_utc or "", away_team, home_team, game_id)`. -/
def dedupe_games_by_matchup (games : List Game) : List Game :=
  match games with
  | [] => []
  | _ =>
    List.insertionSort gameLE ((games.foldl dedupeStep []).map Prod.snd)

/-- `InjuryTag` (src/backend/app/models.py); `updated_at` timestamps as `ℤ`. -/
structure InjuryTag where
  player_name : String
  team : String
  status : String
  comment : Option String
  source : String
  updated_at : Option ℤ
deriving DecidableEq, Repr

/-- `PlayerMatchup` (src/backend/app/models.py); the `stat_ranks` /
`stat_tiers` dicts as insertion-ordered assoc lists. -/
structure PlayerMatchup where
  player_id : ℤ
  player_name : String
  team : String
  opponent : String
  position_group : PositionGroup
  avg_minutes : ℚ
  injury_status : Option String
  environment_score : ℚ
  stat_ranks : List (String × ℤ)
  stat_tiers : List (String × MatchupTier)
deriving DecidableEq, Repr

/-- `MatchupResponse` (src/backend/app/models.py); dates as day ordinals. -/
structure MatchupResponse where
  slate_date : ℤ
  as_of_date : ℤ
  window : Window
  games : List Game
  injuries : List InjuryTag
  players : List PlayerMatchup
deriving DecidableEq, Repr

/-- `as_of_date_for_slate` (src/backend/app/utils.py):
`slate_date - timedelta(days=1)`. -/
def as_of_date_for_slate (slate_date : ℤ) : ℤ := slate_date - 1

/-- The `MatchupResponse` built at the end of
`MatchupService._compute_matchups`: its `slate_date` is the requested slate
and its `as_of_date` is always `as_of_date_for_slate slate_date`; the
games/injuries/players content derived from upstream data is abstracted as
parameters (it is modelled in detail elsewhere in this file). -/
def computeMatchups (slate_date : ℤ) (window : Window) (games : List Game)
    (injuries : List InjuryTag) (players : List PlayerMatchup) : MatchupResponse :=
  { slate_date := slate_date, as_of_date := as_of_date_for_slate slate_date,
    window := window, games := games, injuries := injuries, players := players }

/-- Base-response selection in `MatchupService.get_matchups`
(src/backend/app/services/matchup_service.py): volatile cache hit, else
durable snapshot-store hit, then the staleness guard
(`base_response.as_of_date < expected_as_of` discards the hit), then a
fresh `_compute_matchups` run when no valid hit remains. -/
def getMatchupsBase (cached stored : Option MatchupResponse) (slate_date : ℤ)
    (window : Window) (games : List Game) (injuries : List InjuryTag)
    (players : List PlayerMatchup) : MatchupResponse :=
  let base0 := match cached with
    | some b => some b
    | none => stored
  let base1 := match base0 with
    | some b => if b.as_of_date < as_of_date_for_slate slate_date then none else some b
    | none => none
  match base1 with
  | some b => b
  | none => computeMatchups slate_date window games injuries players

/-- The zero-games guard in the `recompute=True` branch of
`MatchupService.refresh`: a fresh window result with no games is replaced
by the prior stored snapshot when that snapshot exists and had games. -/
def preserveNonEmpty (existing : Option MatchupResponse) (fresh : MatchupResponse) :
    MatchupResponse :=
  match existing with
  | some prior => if fresh.games.isEmpty && !prior.games.isEmpty then prior else fresh
  | none => fresh

/-- What the `recompute=True` branch of `MatchupService.refresh` persists
and caches for each window. -/
structure RefreshEffects where
  storeSeason : MatchupResponse
  storeLast10 : MatchupResponse
  cacheSeason : MatchupResponse
  cacheLast10 : MatchupResponse
deriving DecidableEq

/-- `MatchupService.refresh` with `recompute=True`
(src/backend/app/services/matchup_service.py): both windows are recomputed
(`freshSeason` / `freshLast10` are the two `_compute_matchups` results),
each guarded by the zero-games check against the previously stored
snapshot, and the guarded results are upserted and cached. -/
def refresh_recompute (existingSeason existingLast10 : Option MatchupResponse)
    (freshSeason freshLast10 : MatchupResponse) : RefreshEffects :=
  let seasonResponse := preserveNonEmpty existingSeason freshSeason
  let last10Response := preserveNonEmpty existingLast10 freshLast10
  { storeSeason := seasonResponse, storeLast10 := last10Response,
    cacheSeason := seasonResponse, cacheLast10 := last10Response }

/-- `MatchupService._with_injury_overlay`
(src/backend/app/services/matchup_service.py): rebuild each player with
only `injury_status` replaced (team+name lookup first, then name-only
lookup), and return the base response with the given injuries list. -/
def with_injury_overlay (base : MatchupResponse) (injuries : List InjuryTag) :
    MatchupResponse :=
  let lookupByTeamName := injuries.foldl
    (fun acc injury =>
      assocUpdate acc (injury.team.toUpper, injury.player_name.toUpper) injury.status) []
  let lookupByName := injuries.foldl
    (fun acc injury => assocUpdate acc injury.player_name.toUpper injury.status) []
  let players := base.players.map (fun player =>
    let status := match
        lookupByTeamName.lookup (player.team.toUpper, player.player_name.toUpper) with
      | some s => some s
      | none => lookupByName.lookup player.player_name.toUpper
    { player_id := player.player_id, player_name := player.player_name,
      team := player.team, opponent := player.opponent,
      position_group := player.position_group, avg_minutes := player.avg_minutes,
      injury_status := status, environment_score := player.environment_score,
      stat_ranks := player.stat_ranks, stat_tiers := player.stat_tiers : PlayerMatchup })
  { slate_date := base.slate_date, as_of_date := base.as_of_date,
    window := base.window, games := base.games, injuries := injuries,
    players := players }

/-- `GameLine` (src/backend/app/models.py). -/
structure GameLine where
  game_id : String
  away_team : String
  home_team : String
  away_spread : Option ℚ
  home_spread : Option ℚ
  game_total : Option ℚ
  source : String
deriving DecidableEq, Repr

/-- `TEAM_NAME_BY_ABBR` (src/backend/app/services/odds_api_service.py). -/
def TEAM_NAME_BY_ABBR : List (String × String) :=
  [("ATL", "Atlanta Hawks"), ("BOS", "Boston Celtics"), ("BKN", "Brooklyn Nets"),
   ("CHA", "Charlotte Hornets"), ("CHI", "Chicago Bulls"), ("CLE", "Cleveland Cavaliers"),
   ("DAL", "Dallas Mavericks"), ("DEN", "Denver Nuggets"), ("DET", "Detroit Pistons"),
   ("GSW", "Golden State Warriors"), ("HOU", "Houston Rockets"), ("IND", "Indiana Pacers"),
   ("LAC", "Los Angeles Clippers"), ("LAL", "Los Angeles Lakers"),
   ("MEM", "Memphis Grizzlies"), ("MIA", "Miami Heat"), ("MIL", "Milwaukee Bucks"),
   ("MIN", "Minnesota Timberwolves"), ("NOP", "New Orleans Pelicans"),
   ("NYK", "New York Knicks"), ("OKC", "Oklahoma City Thunder"), ("ORL", "Orlando Magic"),
   ("PHI", "Philadelphia 76ers"), ("PHX", "Phoenix Suns"),
   ("POR", "Portland Trail Blazers"), ("SAC", "Sacramento Kings"),
   ("SAS", "San Antonio Spurs"), ("TOR", "Toronto Raptors"), ("UTA", "Utah Jazz"),
   ("WAS", "Washington Wizards")]

/-- One provider outcome row; `point` is the `_to_float`-parsed
`outcome["point"]` (`none` when absent or unparsable). -/
structure OddsOutcome where
  name : String
  point : Option ℚ
deriving DecidableEq, Repr

/-- One provider market (`key` plus its outcome rows); rows whose
`isinstance` guards fail in the source are simply absent here. -/
structure OddsMarket where
  key : String
  outcomes : List OddsOutcome
deriving DecidableEq, Repr

/-- One provider bookmaker entry. -/
structure OddsBookmaker where
  markets : List OddsMarket
deriving DecidableEq, Repr

/-- One provider event; `home_team` / `away_team` are `none` when the
payload field is not a string (the `isinstance(..., str)` guard). -/
structure OddsEvent where
  home_team : Option String
  away_team : Option String
  bookmakers : List OddsBookmaker
deriving DecidableEq, Repr

/-- The `by_matchup` dict built in `OddsAPIService.fetch_game_lines`:
events keyed by lower-cased `(away, home)` names, later events
overwriting earlier entries. -/
def byMatchup (events : List OddsEvent) : List ((String × String) × OddsEvent) :=
  events.foldl
    (fun acc ev =>
      match ev.home_team, ev.away_team with
      | some h, some a => assocUpdate acc (a.trim.toLower, h.trim.toLower) ev
      | _, _ => acc) []

/-- `TEAM_NAME_BY_ABBR.get(game.away_team, game.away_team).lower()`. -/
def gameAwayName (g : Game) : String :=
  ((TEAM_NAME_BY_ABBR.lookup g.away_team).getD g.away_team).toLower

/-- `TEAM_NAME_BY_ABBR.get(game.home_team, game.home_team).lower()`. -/
def gameHomeName (g : Game) : String :=
  ((TEAM_NAME_BY_ABBR.lookup g.home_team).getD g.home_team).toLower

/-- The `(away_spread, home_spread, game_total)` accumulator of
`OddsAPIService._extract_market_lines`. -/
structure MarketLines where
  away_spread : Option ℚ
  home_spread : Option ℚ
  game_total : Option ℚ
deriving DecidableEq, Repr

/-- One market pass of `_extract_market_lines`: a "spreads" market is
scanned while a spread is still missing (matching outcome names against
the event's away/home names, later matches overwriting), and a "totals"
market supplies the first present point while the total is missing. -/
def stepMarket (awayName homeName : String) (st : MarketLines) (m : OddsMarket) :
    MarketLines :=
  let st :=
    if m.key.trim.toLower = "spreads"
        ∧ (st.away_spread = none ∨ st.home_spread = none) then
      m.outcomes.foldl
        (fun s o =>
          match o.point with
          | none => s
          | some p =>
            if o.name.trim.toLower = awayName then { s with away_spread := some p }
            else if o.name.trim.toLower = homeName then { s with home_spread := some p }
            else s) st
    else st
  if m.key.trim.toLower = "totals" ∧ st.game_total = none then
    { st with game_total := (m.outcomes.filterMap (fun o => o.point)).head? }
  else st

/-- `OddsAPIService._extract_market_lines`: fold over bookmakers and their
markets; once all three lines are set the loop breaks (further bookmakers
are skipped). -/
def extract_market_lines (ev : OddsEvent) : MarketLines :=
  let awayName := (ev.away_team.getD "").trim.toLower
  let homeName := (ev.home_team.getD "").trim.toLower
  ev.bookmakers.foldl
    (fun st bk =>
      if st.away_spread.isSome ∧ st.home_spread.isSome ∧ st.game_total.isSome then st
      else bk.markets.foldl (stepMarket awayName homeName) st)
    { away_spread := none, home_spread := none, game_total := none }

/-- `OddsAPIService.fetch_game_lines`
(src/backend/app/services/odds_api_service.py): with no configured API key
every game maps to an "odds-api-unconfigured" line; otherwise each game is
matched against the provider events by lower-cased team names, an
unmatched game yielding an "odds-api-no-match" line with null fields. The
`events` parameter stands for the `_fetch_events()` result. -/
def fetch_game_lines (api_key : Option String) (events : List OddsEvent)
    (games : List Game) : List GameLine :=
  if !truthyStr api_key then
    games.map (fun g =>
      { game_id := g.game_id, away_team := g.away_team, home_team := g.home_team,
        away_spread := none, home_spread := none, game_total := none,
        source := "odds-api-unconfigured" })
  else
    games.map (fun g =>
      match (byMatchup events).lookup (gameAwayName g, gameHomeName g) with
      | none =>
        { game_id := g.game_id, away_team := g.away_team, home_team := g.home_team,
          away_spread := none, home_spread := none, game_total := none,
          source := "odds-api-no-match" }
      | some ev =>
        let lines := extract_market_lines ev
        { game_id := g.game_id, away_team := g.away_team, home_team := g.home_team,
          away_spread := lines.away_spread, home_spread := lines.home_spread,
          game_total := lines.game_total, source := "odds-api" })

/-- One raw per-game player row for
`NBADataService._build_player_baselines_from_logs`, after pandas parsing:
`none` models a missing or NaN cell (`pd.to_numeric(errors="coerce")` for
the stat columns, `pd.to_datetime(errors="coerce")` for the date). -/
structure LogRow where
  player_id : Option ℤ
  player_name : String
  team : String
  game_date : Option ℤ
  min : Option ℚ
  pts : Option ℚ
  ast : Option ℚ
  reb : Option ℚ
  stl : Option ℚ
  blk : Option ℚ
  fg3a : Option ℚ
  fg3m : Option ℚ
  fta : Option ℚ
  ftm : Option ℚ
  fga : Option ℚ
  fgm : Option ℚ
  tov : Option ℚ
  plus_minus : Option ℚ
deriving DecidableEq, Repr

/-- The stat columns of `stat_column_map` in
`_build_player_baselines_from_logs`. -/
def STAT_COLUMN_NAMES : List String :=
  ["MIN", "PTS", "AST", "REB", "STL", "BLK", "FG3A", "FG3M", "FTA", "FTM",
   "FGA", "FGM", "TOV", "PLUS_MINUS"]

/-- Column access on a raw row. -/
def LogRow.stat (r : LogRow) : String → Option ℚ
  | "MIN" => r.min
  | "PTS" => r.pts
  | "AST" => r.ast
  | "REB" => r.reb
  | "STL" => r.stl
  | "BLK" => r.blk
  | "FG3A" => r.fg3a
  | "FG3M" => r.fg3m
  | "FTA" => r.fta
  | "FTM" => r.ftm
  | "FGA" => r.fga
  | "FGM" => r.fgm
  | "TOV" => r.tov
  | "PLUS_MINUS" => r.plus_minus
  | _ => none

/-- Which columns `_pick_column` finds in the input frame. -/
structure LogCols where
  has_player_id : Bool
  has_player_name : Bool
  has_team : Bool
  has_date : Bool
  has_stat : String → Bool

/-- The `if not all([player_id_col, player_name_col, team_col,
stat_column_map["MIN"], date_col])` guard. -/
def requiredColsPresent (cols : LogCols) : Bool :=
  cols.has_player_id && cols.has_player_name && cols.has_team
    && cols.has_stat "MIN" && cols.has_date

/-- `frame.dropna(subset=[player_id_col, "_parsed_date",
stat_column_map["MIN"]])`: rows lacking a player id, a parsed date or a
minutes value are dropped. -/
def filteredRows (rows : List LogRow) : List LogRow :=
  rows.filter (fun r => r.player_id.isSome && r.game_date.isSome && r.min.isSome)

/-- The group of filtered rows belonging to one player id. -/
def playerRows (rows : List LogRow) (pid : ℤ) : List LogRow :=
  (filteredRows rows).filter (fun r => r.player_id = some pid)

/-- `grouped["_GP"]`: the per-player row count
(`agg({date_col: "count"})`) after the `clip(lower=1)` guard. -/
def gamesPlayed (rows : List LogRow) (pid : ℤ) : ℕ :=
  max (playerRows rows pid).length 1

/-- pandas `Series.sum(min_count=1)`: the sum of the present (non-NaN)
cells, or NaN (`none`) when no cell is present. -/
def sumMinCount1 (cells : List (Option ℚ)) : Option ℚ :=
  if (cells.filterMap id).isEmpty then none else some (cells.filterMap id).sum

/-- `grouped[f"_{name}_TOTAL"]`: a present stat column is summed with
`min_count=1` over the player's rows; an absent column contributes the
constant `0.0`. -/
def statTotal (cols : LogCols) (rows : List LogRow) (pid : ℤ) (stat : String) :
    Option ℚ :=
  if cols.has_stat stat then
    sumMinCount1 ((playerRows rows pid).map (fun r => r.stat stat))
  else some 0

/-- `grouped[name] = grouped[f"_{name}_TOTAL"] / grouped["_GP"]` (NaN
totals propagate). -/
def statAvg (cols : LogCols) (rows : List LogRow) (pid : ℤ) (stat : String) :
    Option ℚ :=
  (statTotal cols rows pid stat).map (fun t => t / (gamesPlayed rows pid : ℚ))

/-- The shooting-percentage rule of `_build_player_baselines_from_logs`:
`makes_total / attempts_total if attempts_total > 0 else 0.0`; a NaN
attempts total fails the `> 0` comparison and yields `0.0`, and a NaN
makes total with positive attempts propagates NaN. -/
def pctOf (makes attempts : Option ℚ) : Option ℚ :=
  match attempts with
  | none => some 0
  | some a =>
    if 0 < a then
      match makes with
      | none => none
      | some m => some (m / a)
    else some 0

/-- Ascending comparison on parsed dates for
`frame.sort_values("_parsed_date")` (a stable sort; every row kept by
`filteredRows` has a date). -/
def dateLE (a b : LogRow) : Prop := a.game_date.getD 0 ≤ b.game_date.getD 0

instance : DecidableRel dateLE := fun a b =>
  inferInstanceAs (Decidable (a.game_date.getD 0 ≤ b.game_date.getD 0))

/-- `drop_duplicates(subset=[player_id_col], keep="last")`: keep a row iff
no later row carries the same player id. -/
def dedupKeepLast : List LogRow → List LogRow
  | [] => []
  | r :: rest =>
    if rest.any (fun x => x.player_id = r.player_id) then dedupKeepLast rest
    else r :: dedupKeepLast rest

/-- The `latest_team` frame: filtered rows stably sorted by parsed date,
deduplicated per player keeping the last (most recent) row. -/
def latestTeamRows (rows : List LogRow) : List LogRow :=
  dedupKeepLast (List.insertionSort dateLE (filteredRows rows))

/-- One output row of `_build_player_baselines_from_logs` (the selected
output columns; `none` models a NaN cell). -/
structure BaselineRow where
  player_id : ℤ
  player_name : String
  team : String
  min : Option ℚ
  pts : Option ℚ
  ast : Option ℚ
  reb : Option ℚ
  stl : Option ℚ
  blk : Option ℚ
  fg3a : Option ℚ
  fg3m : Option ℚ
  fta : Option ℚ
  ftm : Option ℚ
  fg_pct : Option ℚ
  fg3_pct : Option ℚ
  ft_pct : Option ℚ
  tov : Option ℚ
  plus_minus : Option ℚ
deriving DecidableEq, Repr

/-- Column access on an output row (the averaged stat columns). -/
def BaselineRow.stat (b : BaselineRow) : String → Option ℚ
  | "MIN" => b.min
  | "PTS" => b.pts
  | "AST" => b.ast
  | "REB" => b.reb
  | "STL" => b.stl
  | "BLK" => b.blk
  | "FG3A" => b.fg3a
  | "FG3M" => b.fg3m
  | "FTA" => b.fta
  | "FTM" => b.ftm
  | "TOV" => b.tov
  | "PLUS_MINUS" => b.plus_minus
  | _ => none

/-- The averaged stat columns that appear in the output frame. -/
def AVG_STAT_NAMES : List String :=
  ["MIN", "PTS", "AST", "REB", "STL", "BLK", "FG3A", "FG3M", "FTA", "FTM",
   "TOV", "PLUS_MINUS"]

/-- `NBADataService._build_player_baselines_from_logs`
(src/backend/app/services/nba_client.py): empty input, missing required
columns, or an empty post-dropna frame yield an empty frame; otherwise the
`latest_team` rows (one per player, most recent game first determining
name/team) are joined with the per-player aggregates. -/
def build_player_baselines_from_logs (cols : LogCols) (rows : List LogRow) :
    List BaselineRow :=
  if rows.isEmpty then []
  else if !requiredColsPresent cols then []
  else if (filteredRows rows).isEmpty then []
  else
    (latestTeamRows rows).map (fun r =>
      let pid := r.player_id.getD 0
      { player_id := pid, player_name := r.player_name, team := r.team,
        min := statAvg cols rows pid "MIN",
        pts := statAvg cols rows pid "PTS",
        ast := statAvg cols rows pid "AST",
        reb := statAvg cols rows pid "REB",
        stl := statAvg cols rows pid "STL",
        blk := statAvg cols rows pid "BLK",
        fg3a := statAvg cols rows pid "FG3A",
        fg3m := statAvg cols rows pid "FG3M",
        fta := statAvg cols rows pid "FTA",
        ftm := statAvg cols rows pid "FTM",
        fg_pct := pctOf (statTotal cols rows pid "FGM") (statTotal cols rows pid "FGA"),
        fg3_pct := pctOf (statTotal cols rows pid "FG3M") (statTotal cols rows pid "FG3A"),
        ft_pct := pctOf (statTotal cols rows pid "FTM") (statTotal cols rows pid "FTA"),
        tov := statAvg cols rows pid "TOV",
        plus_minus := statAvg cols rows pid "PLUS_MINUS" })

/-- The JSON trees produced by `json.dumps(model_dump(mode="json"))` and
read back by `json.loads`; an ISO date / datetime string leaf is modelled
by the (bijectively corresponding) ordinal it denotes, and JSON numbers by
`ℚ` / `ℤ`. -/
inductive Json where
  | null
  | str (s : String)
  | int (n : ℤ)
  | rat (q : ℚ)
  | date (d : ℤ)
  | obj (fields : List (String × Json))
  | arr (items : List Json)

/-- Field lookup on a JSON object. -/
def Json.getField (j : Json) (k : String) : Option Json :=
  match j with
  | .obj fields => fields.lookup k
  | _ => none

/-- Expect a JSON string. -/
def Json.asStr : Json → Option String
  | .str s => some s
  | _ => none

/-- Expect a JSON integer. -/
def Json.asInt : Json → Option ℤ
  | .int n => some n
  | _ => none

/-- Expect a JSON number. -/
def Json.asRat : Json → Option ℚ
  | .rat q => some q
  | _ => none

/-- Expect an ISO date leaf. -/
def Json.asDate : Json → Option ℤ
  | .date d => some d
  | _ => none

/-- Serialize an optional string (`None` → JSON null). -/
def optStrJson : Option String → Json
  | none => .null
  | some s => .str s

/-- Parse a nullable string field. -/
def optStrOfJson : Json → Option (Option String)
  | .null => some none
  | .str s => some (some s)
  | _ => none

/-- Serialize an optional date/datetime (`None` → JSON null). -/
def optDateJson : Option ℤ → Json
  | none => .null
  | some d => .date d

/-- Parse a nullable date/datetime field. -/
def optDateOfJson : Json → Option (Option ℤ)
  | .null => some none
  | .date d => some (some d)
  | _ => none

/-- Elementwise list decoding (pydantic list validation: the whole list
fails when any element fails). -/
def decodeListWith {α : Type} (f : Json → Option α) : List Json → Option (List α)
  | [] => some []
  | j :: rest =>
    match f j, decodeListWith f rest with
    | some a, some l => some (a :: l)
    | _, _ => none

/-- `PositionGroup` enum values. -/
def PositionGroup.value : PositionGroup → String
  | .guards => "Guards"
  | .forwards => "Forwards"
  | .centers => "Centers"

/-- Parse a `PositionGroup` value string. -/
def PositionGroup.ofValue (s : String) : Option PositionGroup :=
  if s = "Guards" then some .guards
  else if s = "Forwards" then some .forwards
  else if s = "Centers" then some .centers
  else none

/-- `MatchupTier` enum values. -/
def MatchupTier.value : MatchupTier → String
  | .green => "green"
  | .yellow => "yellow"
  | .orange => "orange"
  | .red => "red"

/-- Parse a `MatchupTier` value string. -/
def MatchupTier.ofValue (s : String) : Option MatchupTier :=
  if s = "green" then some .green
  else if s = "yellow" then some .yellow
  else if s = "orange" then some .orange
  else if s = "red" then some .red
  else none

/-- Parse a `Window` value string. -/
def Window.ofValue (s : String) : Option Window :=
  if s = "season" then some .season
  else if s = "last10" then some .last10
  else none

/-- `model_dump(mode="json")` of a `Game`. -/
def Game.toJson (g : Game) : Json :=
  .obj [("game_id", .str g.game_id), ("start_time_utc", optStrJson g.start_time_utc),
        ("away_team", .str g.away_team), ("home_team", .str g.home_team)]

/-- pydantic validation of a `Game` payload. -/
def Game.fromJson (j : Json) : Option Game := do
  let game_id ← (j.getField "game_id").bind Json.asStr
  let start_time_utc ← (j.getField "start_time_utc").bind optStrOfJson
  let away_team ← (j.getField "away_team").bind Json.asStr
  let home_team ← (j.getField "home_team").bind Json.asStr
  return { game_id := game_id, start_time_utc := start_time_utc,
           away_team := away_team, home_team := home_team }

/-- `model_dump(mode="json")` of an `InjuryTag`. -/
def InjuryTag.toJson (t : InjuryTag) : Json :=
  .obj [("player_name", .str t.player_name), ("team", .str t.team),
        ("status", .str t.status), ("comment", optStrJson t.comment),
        ("source", .str t.source), ("updated_at", optDateJson t.updated_at)]

/-- pydantic validation of an `InjuryTag` payload. -/
def InjuryTag.fromJson (j : Json) : Option InjuryTag := do
  let player_name ← (j.getField "player_name").bind Json.asStr
  let team ← (j.getField "team").bind Json.asStr
  let status ← (j.getField "status").bind Json.asStr
  let comment ← (j.getField "comment").bind optStrOfJson
  let source ← (j.getField "source").bind Json.asStr
  let updated_at ← (j.getField "updated_at").bind optDateOfJson
  return { player_name := player_name, team := team, status := status,
           comment := comment, source := source, updated_at := updated_at }

/-- `model_dump(mode="json")` of a `PlayerMatchup`. -/
def PlayerMatchup.toJson (p : PlayerMatchup) : Json :=
  .obj [("player_id", .int p.player_id), ("player_name", .str p.player_name),
        ("team", .str p.team), ("opponent", .str p.opponent),
        ("position_group", .str p.position_group.value),
        ("avg_minutes", .rat p.avg_minutes),
        ("injury_status", optStrJson p.injury_status),
        ("environment_score", .rat p.environment_score),
        ("stat_ranks", .obj (p.stat_ranks.map (fun kv => (kv.1, Json.int kv.2)))),
        ("stat_tiers", .obj (p.stat_tiers.map (fun kv => (kv.1, Json.str kv.2.value))))]

/-- Decode a `Dict[str, int]` payload. -/
def decodeIntDict : Json → Option (List (String × ℤ))
  | .obj fields =>
    fields.foldr
      (fun kv acc =>
        match kv.2.asInt, acc with
        | some n, some l => some ((kv.1, n) :: l)
        | _, _ => none)
      (some [])
  | _ => none

/-- Decode a `Dict[str, MatchupTier]` payload. -/
def decodeTierDict : Json → Option (List (String × MatchupTier))
  | .obj fields =>
    fields.foldr
      (fun kv acc =>
        match kv.2.asStr.bind MatchupTier.ofValue, acc with
        | some t, some l => some ((kv.1, t) :: l)
        | _, _ => none)
      (some [])
  | _ => none

/-- pydantic validation of a `PlayerMatchup` payload. -/
def PlayerMatchup.fromJson (j : Json) : Option PlayerMatchup := do
  let player_id ← (j.getField "player_id").bind Json.asInt
  let player_name ← (j.getField "player_name").bind Json.asStr
  let team ← (j.getField "team").bind Json.asStr
  let opponent ← (j.getField "opponent").bind Json.asStr
  let position_group ← ((j.getField "position_group").bind Json.asStr).bind
    PositionGroup.ofValue
  let avg_minutes ← (j.getField "avg_minutes").bind Json.asRat
  let injury_status ← (j.getField "injury_status").bind optStrOfJson
  let environment_score ← (j.getField "environment_score").bind Json.asRat
  let stat_ranks ← (j.getField "stat_ranks").bind decodeIntDict
  let stat_tiers ← (j.getField "stat_tiers").bind decodeTierDict
  return { player_id := player_id, player_name := player_name, team := team,
           opponent := opponent, position_group := position_group,
           avg_minutes := avg_minutes, injury_status := injury_status,
           environment_score := environment_score, stat_ranks := stat_ranks,
           stat_tiers := stat_tiers }

/-- `json.dumps(matchup_response.model_dump(mode="json"))` in
`SnapshotStore.upsert` (the JSON tree the payload string denotes). -/
def MatchupResponse.toJson (resp : MatchupResponse) : Json :=
  .obj [("slate_date", .date resp.slate_date), ("as_of_date", .date resp.as_of_date),
        ("window", .str resp.window.value),
        ("games", .arr (resp.games.map Game.toJson)),
        ("injuries", .arr (resp.injuries.map InjuryTag.toJson)),
        ("players", .arr (resp.players.map PlayerMatchup.toJson))]

/-- `MatchupResponse.model_validate(json.loads(payload))` in
`SnapshotStore.get` (a `none` models the swallowed exception). -/
def MatchupResponse.fromJson (j : Json) : Option MatchupResponse := do
  let slate_date ← (j.getField "slate_date").bind Json.asDate
  let as_of_date ← (j.getField "as_of_date").bind Json.asDate
  let window ← ((j.getField "window").bind Json.asStr).bind Window.ofValue
  let games ← match j.getField "games" with
    | some (.arr items) => decodeListWith Game.fromJson items
    | _ => none
  let injuries ← match j.getField "injuries" with
    | some (.arr items) => decodeListWith InjuryTag.fromJson items
    | _ => none
  let players ← match j.getField "players" with
    | some (.arr items) => decodeListWith PlayerMatchup.fromJson items
    | _ => none
  return { slate_date := slate_date, as_of_date := as_of_date, window := window,
           games := games, injuries := injuries, players := players }

/-- The `matchup_snapshots` table: rows keyed by the
`(slate_date, window_key)` primary key, payload as the stored JSON tree. -/
abbrev SnapStore := List ((ℤ × String) × Json)

/-- `INSERT ... ON CONFLICT(slate_date, window_key) DO UPDATE` in
`_sqlite_upsert_snapshot` / `_postgres_upsert_snapshot`. -/
def storeUpsertRow : SnapStore → ℤ × String → Json → SnapStore
  | [], k, p => [(k, p)]
  | (k0, p0) :: rest, k, p =>
    if k0 = k then (k, p) :: rest else (k0, p0) :: storeUpsertRow rest k p

/-- `SnapshotStore.upsert` (src/backend/app/services/snapshot_store.py). -/
def snapshotUpsert (store : SnapStore) (resp : MatchupResponse) : SnapStore :=
  storeUpsertRow store (resp.slate_date, resp.window.value) resp.toJson

/-- `SnapshotStore.get` (src/backend/app/services/snapshot_store.py):
select the payload by primary key and validate it back into a
`MatchupResponse` (`none` on a missing row or a validation failure). -/
def snapshotGet (store : SnapStore) (slate_date : ℤ) (window : Window) :
    Option MatchupResponse :=
  match store.lookup (slate_date, window.value) with
  | none => none
  | some payload => MatchupResponse.fromJson payload

/-- Concrete input frame columns for evaluating the baseline builder. -/
def c8cols : LogCols :=
  { has_player_id := true, has_player_name := true, has_team := true,
    has_date := true, has_stat := fun _ => true }

/-- Concrete raw row: game 1 of player 1. -/
def c8rowA : LogRow :=
  { player_id := some 1, player_name := "Ayo Dosunmu", team := "CHI",
    game_date := some 1, min := some 30, pts := some 10, ast := some 4,
    reb := some 3, stl := some 1, blk := some 0, fg3a := some 4, fg3m := some 2,
    fta := some 2, ftm := some 2, fga := some 8, fgm := some 4, tov := some 1,
    plus_minus := some 5 }

/-- Concrete raw row: game 2 of player 1. -/
def c8rowB : LogRow :=
  { player_id := some 1, player_name := "Ayo Dosunmu", team := "CHI",
    game_date := some 2, min := some 32, pts := some 11, ast := some 6,
    reb := some 5, stl := some 2, blk := some 1, fg3a := some 6, fg3m := some 3,
    fta := some 4, ftm := some 3, fga := some 10, fgm := some 5, tov := some 2,
    plus_minus := some (-3) }

/-- Concrete raw input frame. -/
def c8rows : List LogRow := [c8rowA, c8rowB]

/-- Concrete schedule row carrying a known start time. -/
def c5gameWithStart : Game :=
  { game_id := "0022500002", start_time_utc := some "2026-02-11T00:00:00Z",
    away_team := "CHI", home_team := "BOS" }

/-- Concrete duplicate of the same matchup: lower game id, no start time. -/
def c5gameNoStart : Game :=
  { game_id := "0022500001", start_time_utc := none,
    away_team := "CHI", home_team := "BOS" }

/-- Fallback row for `headD` (never selected). -/
def c8fallback : BaselineRow :=
  { player_id := 0, player_name := "", team := "", min := none, pts := none,
    ast := none, reb := none, stl := none, blk := none, fg3a := none, fg3m := none,
    fta := none, ftm := none, fg_pct := none, fg3_pct := none, ft_pct := none,
    tov := none, plus_minus := none }

/-- The baseline row the builder produces for `c8rows`. -/
def c8head : BaselineRow :=
  (build_player_baselines_from_logs c8cols c8rows).headD c8fallback

/-! ## Theorems -/

/-- Claim C10: the injury overlay preserves slate date, as-of date, window
and games, rebuilds the players list one-to-one in order with every
per-player field except `injury_status` unchanged, and installs exactly
the given injuries list. -/
theorem with_injury_overlay_frame (base : MatchupResponse) (injuries : List InjuryTag) :
    (with_injury_overlay base injuries).slate_date = base.slate_date
    ∧ (with_injury_overlay base injuries).as_of_date = base.as_of_date
    ∧ (with_injury_overlay base injuries).window = base.window
    ∧ (with_injury_overlay base injuries).games = base.games
    ∧ (with_injury_overlay base injuries).injuries = injuries
    ∧ ∃ h : (with_injury_overlay base injuries).players.length = base.players.length,
        ∀ i : Fin base.players.length,
          ((with_injury_overlay base injuries).players.get (Fin.cast h.symm i)).player_id
              = (base.players.get i).player_id
          ∧ ((with_injury_overlay base injuries).players.get (Fin.cast h.symm i)).player_name
              = (base.players.get i).player_name
          ∧ ((with_injury_overlay base injuries).players.get (Fin.cast h.symm i)).team
              = (base.players.get i).team
          ∧ ((with_injury_overlay base injuries).players.get (Fin.cast h.symm i)).opponent
              = (base.players.get i).opponent
          ∧ ((with_injury_overlay base injuries).players.get (Fin.cast h.symm i)).position_group
              = (base.players.get i).position_group
          ∧ ((with_injury_overlay base injuries).players.get (Fin.cast h.symm i)).avg_minutes
              = (base.players.get i).avg_minutes
          ∧ ((with_injury_overlay base injuries).players.get (Fin.cast h.symm i)).environment_score
              = (base.players.get i).environment_score
          ∧ ((with_injury_overlay base injuries).players.get (Fin.cast h.symm i)).stat_ranks
              = (base.players.get i).stat_ranks
          ∧ ((with_injury_overlay base injuries).players.get (Fin.cast h.symm i)).stat_tiers
              = (base.players.get i).stat_tiers := by
  refine ⟨rfl, rfl, rfl, rfl, rfl, ?_⟩
  refine ⟨by simp [with_injury_overlay], ?_⟩
  intro i
  simp [with_injury_overlay, List.get_eq_getElem, List.getElem_map]

/-- Claim C2: the base response returned by `get_matchups` never has an
as-of date older than `slate_date - 1`; a cached or durable hit that is
that stale is discarded and replaced by the fresh computation, whose
as-of date is exactly `slate_date - 1`. -/
theorem get_matchups_never_serves_stale (cached stored : Option MatchupResponse)
    (slate_date : ℤ) (window : Window) (games : List Game)
    (injuries : List InjuryTag) (players : List PlayerMatchup) :
    as_of_date_for_slate slate_date
      ≤ (getMatchupsBase cached stored slate_date window games injuries players).as_of_date
    ∧ (∀ b : MatchupResponse,
        (cached = some b ∨ (cached = none ∧ stored = some b)) →
        b.as_of_date < as_of_date_for_slate slate_date →
        getMatchupsBase cached stored slate_date window games injuries players
          = computeMatchups slate_date window games injuries players
        ∧ (computeMatchups slate_date window games injuries players).as_of_date
          = as_of_date_for_slate slate_date) := by
  constructor
  · cases cached with
    | some b =>
      by_cases hb : b.as_of_date < as_of_date_for_slate slate_date
      · simp [getMatchupsBase, hb, computeMatchups]
      · simp [getMatchupsBase, hb, computeMatchups]
        exact le_of_not_lt hb
    | none =>
      cases stored with
      | some b =>
        by_cases hb : b.as_of_date < as_of_date_for_slate slate_date
        · simp [getMatchupsBase, hb, computeMatchups]
        · simp [getMatchupsBase, hb, computeMatchups]
          exact le_of_not_lt hb
      | none => simp [getMatchupsBase, computeMatchups]
  · intro b hb hlt
    rcases hb with rfl | ⟨hc, rfl⟩
    · exact ⟨by simp [getMatchupsBase, hlt], rfl⟩
    · exact ⟨by simp [getMatchupsBase, hc, hlt], rfl⟩

/-- Witness for C2 at a concrete stale cached hit. -/
theorem get_matchups_never_serves_stale_witness :
    getMatchupsBase
        (some { slate_date := 100, as_of_date := 90, window := Window.season,
                games := [], injuries := [], players := [] })
        none 100 Window.season [] [] []
      = computeMatchups 100 Window.season [] [] []
    ∧ (computeMatchups 100 Window.season [] [] []).as_of_date
      = as_of_date_for_slate 100 :=
  (get_matchups_never_serves_stale
      (some { slate_date := 100, as_of_date := 90, window := Window.season,
              games := [], injuries := [], players := [] })
      none 100 Window.season [] [] []).2
    { slate_date := 100, as_of_date := 90, window := Window.season,
      games := [], injuries := [], players := [] }
    (Or.inl rfl) (by decide)

/-- Claim C6: `refresh(recompute=true)` recomputes both windows, and for
each window independently a fresh result with zero games is discarded in
favour of a previously stored snapshot that had at least one game — the
prior snapshot is what gets persisted and cached, unchanged. -/
theorem refresh_recompute_preserves_prior
    (existingSeason existingLast10 : Option MatchupResponse)
    (freshSeason freshLast10 prior : MatchupResponse) :
    (existingSeason = some prior → freshSeason.games = [] → prior.games ≠ [] →
      (refresh_recompute existingSeason existingLast10 freshSeason freshLast10).storeSeason
          = prior
      ∧ (refresh_recompute existingSeason existingLast10 freshSeason freshLast10).cacheSeason
          = prior)
    ∧ (existingLast10 = some prior → freshLast10.games = [] → prior.games ≠ [] →
      (refresh_recompute existingSeason existingLast10 freshSeason freshLast10).storeLast10
          = prior
      ∧ (refresh_recompute existingSeason existingLast10 freshSeason freshLast10).cacheLast10
          = prior) := by
  constructor
  · rintro rfl hfresh hprior
    constructor <;>
      simp [refresh_recompute, preserveNonEmpty, List.isEmpty_iff, hfresh, hprior]
  · rintro rfl hfresh hprior
    constructor <;>
      simp [refresh_recompute, preserveNonEmpty, List.isEmpty_iff, hfresh, hprior]

/-- Witness for C6: an empty recomputation against a stored snapshot with
one game. -/
theorem refresh_recompute_preserves_prior_witness :
    (refresh_recompute
        (some { slate_date := 100, as_of_date := 99, window := Window.season,
                games := [{ game_id := "0022500001", start_time_utc := none,
                            away_team := "CHI", home_team := "BOS" }],
                injuries := [], players := [] })
        none
        { slate_date := 100, as_of_date := 99, window := Window.season,
          games := [], injuries := [], players := [] }
        { slate_date := 100, as_of_date := 99, window := Window.last10,
          games := [], injuries := [], players := [] }).storeSeason
      = { slate_date := 100, as_of_date := 99, window := Window.season,
          games := [{ game_id := "0022500001", start_time_utc := none,
                      away_team := "CHI", home_team := "BOS" }],
          injuries := [], players := [] }
    ∧ (refresh_recompute
        (some { slate_date := 100, as_of_date := 99, window := Window.season,
                games := [{ game_id := "0022500001", start_time_utc := none,
                            away_team := "CHI", home_team := "BOS" }],
                injuries := [], players := [] })
        none
        { slate_date := 100, as_of_date := 99, window := Window.season,
          games := [], injuries := [], players := [] }
        { slate_date := 100, as_of_date := 99, window := Window.last10,
          games := [], injuries := [], players := [] }).cacheSeason
      = { slate_date := 100, as_of_date := 99, window := Window.season,
          games := [{ game_id := "0022500001", start_time_utc := none,
                      away_team := "CHI", home_team := "BOS" }],
          injuries := [], players := [] } :=
  (refresh_recompute_preserves_prior
      (some { slate_date := 100, as_of_date := 99, window := Window.season,
              games := [{ game_id := "0022500001", start_time_utc := none,
                          away_team := "CHI", home_team := "BOS" }],
              injuries := [], players := [] })
      none
      { slate_date := 100, as_of_date := 99, window := Window.season,
        games := [], injuries := [], players := [] }
      { slate_date := 100, as_of_date := 99, window := Window.last10,
        games := [], injuries := [], players := [] }
      { slate_date := 100, as_of_date := 99, window := Window.season,
        games := [{ game_id := "0022500001", start_time_utc := none,
                    away_team := "CHI", home_team := "BOS" }],
        injuries := [], players := [] }).1
    rfl rfl (by decide)

/-- Claim C7: the odds normalizer emits exactly one line per requested
game, in request order, carrying the game's id and team codes; a game with
no matching provider event (or an unconfigured provider) gets a sentinel
non-live source and null spread/total fields instead of being omitted. -/
theorem fetch_game_lines_one_per_game (api_key : Option String)
    (events : List OddsEvent) (games : List Game) :
    ∃ h : (fetch_game_lines api_key events games).length = games.length,
      ∀ i : Fin games.length,
        ((fetch_game_lines api_key events games).get (Fin.cast h.symm i)).game_id
            = (games.get i).game_id
        ∧ ((fetch_game_lines api_key events games).get (Fin.cast h.symm i)).away_team
            = (games.get i).away_team
        ∧ ((fetch_game_lines api_key events games).get (Fin.cast h.symm i)).home_team
            = (games.get i).home_team
        ∧ ((byMatchup events).lookup
              (gameAwayName (games.get i), gameHomeName (games.get i)) = none
            ∨ truthyStr api_key = false →
          (((fetch_game_lines api_key events games).get (Fin.cast h.symm i)).source
              = "odds-api-no-match"
            ∨ ((fetch_game_lines api_key events games).get (Fin.cast h.symm i)).source
              = "odds-api-unconfigured")
          ∧ ((fetch_game_lines api_key events games).get (Fin.cast h.symm i)).away_spread
              = none
          ∧ ((fetch_game_lines api_key events games).get (Fin.cast h.symm i)).home_spread
              = none
          ∧ ((fetch_game_lines api_key events games).get (Fin.cast h.symm i)).game_total
              = none) := by
  by_cases hk : truthyStr api_key
  · refine ⟨by simp [fetch_game_lines, hk], ?_⟩
    intro i
    simp only [List.get_eq_getElem, Fin.coe_cast]
    rcases hlook : (byMatchup events).lookup
        (gameAwayName games[(i : ℕ)], gameHomeName games[(i : ℕ)]) with _ | ev
    · simp [fetch_game_lines, hk, List.getElem_map, hlook]
    · simp [fetch_game_lines, hk, List.getElem_map, hlook]
  · refine ⟨by simp [fetch_game_lines, hk], ?_⟩
    intro i
    simp [fetch_game_lines, hk, List.get_eq_getElem, List.getElem_map]

/-- Witness for C7 at a concrete unmatched game. -/
theorem fetch_game_lines_one_per_game_witness :
    ((fetch_game_lines (some "key") []
        [{ game_id := "0022500001", start_time_utc := none,
           away_team := "CHI", home_team := "BOS" }]).get
      (Fin.cast (fetch_game_lines_one_per_game (some "key") []
          [{ game_id := "0022500001", start_time_utc := none,
             away_team := "CHI", home_team := "BOS" }]).choose.symm
        ⟨0, by decide⟩)).source = "odds-api-no-match"
    ∨ ((fetch_game_lines (some "key") []
        [{ game_id := "0022500001", start_time_utc := none,
           away_team := "CHI", home_team := "BOS" }]).get
      (Fin.cast (fetch_game_lines_one_per_game (some "key") []
          [{ game_id := "0022500001", start_time_utc := none,
             away_team := "CHI", home_team := "BOS" }]).choose.symm
        ⟨0, by decide⟩)).source = "odds-api-unconfigured" :=
  (((fetch_game_lines_one_per_game (some "key") []
      [{ game_id := "0022500001", start_time_utc := none,
         away_team := "CHI", home_team := "BOS" }]).choose_spec
    ⟨0, by decide⟩).2.2.2 (Or.inl (by decide))).1

theorem optStrOfJson_optStrJson (o : Option String) :
    optStrOfJson (optStrJson o) = some o := by
  cases o <;> rfl

theorem optDateOfJson_optDateJson (o : Option ℤ) :
    optDateOfJson (optDateJson o) = some o := by
  cases o <;> rfl

theorem positionGroup_ofValue_value (g : PositionGroup) :
    PositionGroup.ofValue g.value = some g := by
  cases g <;> rfl

theorem matchupTier_ofValue_value (t : MatchupTier) :
    MatchupTier.ofValue t.value = some t := by
  cases t <;> rfl

theorem window_ofValue_value (w : Window) : Window.ofValue w.value = some w := by
  cases w <;> rfl

theorem gameFromJson_toJson (g : Game) : Game.fromJson g.toJson = some g := by
  cases g with
  | mk game_id start_time_utc away_team home_team =>
    cases start_time_utc <;> rfl

theorem injuryTagFromJson_toJson (t : InjuryTag) :
    InjuryTag.fromJson t.toJson = some t := by
  cases t with
  | mk player_name team status comment source updated_at =>
    cases comment <;> cases updated_at <;> rfl

theorem decodeIntDict_enc (l : List (String × ℤ)) :
    decodeIntDict (Json.obj (l.map (fun kv => (kv.1, Json.int kv.2)))) = some l := by
  induction l with
  | nil => rfl
  | cons kv rest ih =>
    simp only [decodeIntDict, List.map_cons, List.foldr_cons] at ih ⊢
    rw [ih]
    simp [Json.asInt]

theorem decodeTierDict_enc (l : List (String × MatchupTier)) :
    decodeTierDict (Json.obj (l.map (fun kv => (kv.1, Json.str kv.2.value)))) = some l := by
  induction l with
  | nil => rfl
  | cons kv rest ih =>
    simp only [decodeTierDict, List.map_cons, List.foldr_cons] at ih ⊢
    rw [ih]
    simp [Json.asStr, matchupTier_ofValue_value]

theorem playerMatchupFromJson_toJson (p : PlayerMatchup) :
    PlayerMatchup.fromJson p.toJson = some p := by
  cases p with
  | mk player_id player_name team opponent position_group avg_minutes
      injury_status environment_score stat_ranks stat_tiers =>
    simp [PlayerMatchup.toJson, PlayerMatchup.fromJson, Json.getField, List.lookup,
      Json.asInt, Json.asStr, Json.asRat, optStrOfJson_optStrJson,
      positionGroup_ofValue_value, decodeIntDict_enc, decodeTierDict_enc]

theorem decodeListWith_map {α : Type} (f : Json → Option α) (enc : α → Json)
    (h : ∀ a, f (enc a) = some a) (l : List α) :
    decodeListWith f (l.map enc) = some l := by
  induction l with
  | nil => rfl
  | cons a rest ih => simp [decodeListWith, h, ih]

theorem matchupResponseFromJson_toJson (resp : MatchupResponse) :
    MatchupResponse.fromJson resp.toJson = some resp := by
  cases resp with
  | mk slate_date as_of_date window games injuries players =>
    simp [MatchupResponse.toJson, MatchupResponse.fromJson, Json.getField,
      List.lookup, Json.asDate, Json.asStr, window_ofValue_value,
      decodeListWith_map Game.fromJson Game.toJson gameFromJson_toJson,
      decodeListWith_map InjuryTag.fromJson InjuryTag.toJson injuryTagFromJson_toJson,
      decodeListWith_map PlayerMatchup.fromJson PlayerMatchup.toJson
        playerMatchupFromJson_toJson]

theorem lookup_storeUpsertRow (store : SnapStore) (k : ℤ × String) (p : Json) :
    (storeUpsertRow store k p).lookup k = some p := by
  induction store with
  | nil => simp [storeUpsertRow, List.lookup]
  | cons kv rest ih =>
    rcases kv with ⟨k0, p0⟩
    by_cases h : k0 = k
    · simp [storeUpsertRow, h, List.lookup]
    · simp only [storeUpsertRow, if_neg h]
      rw [List.lookup_cons]
      have : (k == k0) = false := by
        simp [Ne.symm h]
      rw [this]
      exact ih

/-- Claim C9: upserting a `MatchupResponse` into the snapshot store and
reading it back by the same `(slate date, window)` key returns a response
equal to the input in every field, including the nested games, injuries
and players lists. -/
theorem snapshot_upsert_get_roundtrip (store : SnapStore) (resp : MatchupResponse) :
    snapshotGet (snapshotUpsert store resp) resp.slate_date resp.window = some resp := by
  simp [snapshotGet, snapshotUpsert, lookup_storeUpsertRow,
    matchupResponseFromJson_toJson]

theorem foldl_min_le_init (l : List ℚ) (a : ℚ) : l.foldl min a ≤ a := by
  induction l generalizing a with
  | nil => simp
  | cons x xs ih =>
    simp only [List.foldl_cons]
    exact le_trans (ih (min a x)) (min_le_left a x)

theorem foldl_min_le_mem (l : List ℚ) : ∀ a b : ℚ, b ∈ l → l.foldl min a ≤ b := by
  induction l with
  | nil => intro a b hb; simp at hb
  | cons x xs ih =>
    intro a b hb
    simp only [List.foldl_cons]
    rcases List.mem_cons.mp hb with rfl | h
    · exact le_trans (foldl_min_le_init xs (min a b)) (min_le_right a b)
    · exact ih (min a x) b h

theorem le_foldl_max_init (l : List ℚ) (a : ℚ) : a ≤ l.foldl max a := by
  induction l generalizing a with
  | nil => simp
  | cons x xs ih =>
    simp only [List.foldl_cons]
    exact le_trans (le_max_left a x) (ih (max a x))

theorem le_foldl_max_mem (l : List ℚ) : ∀ a b : ℚ, b ∈ l → b ≤ l.foldl max a := by
  induction l with
  | nil => intro a b hb; simp at hb
  | cons x xs ih =>
    intro a b hb
    simp only [List.foldl_cons]
    rcases List.mem_cons.mp hb with rfl | h
    · exact le_trans (le_max_right a b) (le_foldl_max_init xs (max a b))
    · exact ih (max a x) b h

theorem min?_getD_le {xs : List ℚ} {b : ℚ} (hb : b ∈ xs) : xs.min?.getD 0 ≤ b := by
  cases xs with
  | nil => simp at hb
  | cons a l =>
    show (l.foldl min a) ≤ b
    rcases List.mem_cons.mp hb with rfl | h
    · exact foldl_min_le_init l b
    · exact foldl_min_le_mem l a b h

theorem le_max?_getD {xs : List ℚ} {b : ℚ} (hb : b ∈ xs) : b ≤ xs.max?.getD 0 := by
  cases xs with
  | nil => simp at hb
  | cons a l =>
    show b ≤ l.foldl max a
    rcases List.mem_cons.mp hb with rfl | h
    · exact le_foldl_max_init l b
    · exact le_foldl_max_mem l a b h

theorem normalize_score_bounds (v lo hi : ℚ) (hlo : lo ≤ v) (hhi : v ≤ hi) :
    0 ≤ normalize_score v lo hi ∧ normalize_score v lo hi ≤ 100 := by
  unfold normalize_score
  split_ifs with h
  · norm_num
  · push_neg at h
    constructor
    · exact mul_nonneg (div_nonneg (by linarith) (by linarith)) (by norm_num)
    · have h1 : (v - lo) / (hi - lo) ≤ 1 := div_le_one_of_le₀ (by linarith) (by linarith)
      calc (v - lo) / (hi - lo) * 100 ≤ 1 * 100 :=
            mul_le_mul_of_nonneg_right h1 (by norm_num)
        _ = 100 := by norm_num

theorem roundHalfEven_bounds (q : ℚ) :
    ⌊q⌋ ≤ roundHalfEven q ∧ roundHalfEven q ≤ ⌊q⌋ + 1 := by
  unfold roundHalfEven
  split_ifs <;> omega

theorem round2_bounds {q : ℚ} (h0 : 0 ≤ q) (h100 : q ≤ 100) :
    0 ≤ round2 q ∧ round2 q ≤ 100 := by
  have hb := roundHalfEven_bounds (100 * q)
  have hfl : (0 : ℤ) ≤ ⌊100 * q⌋ := Int.floor_nonneg.mpr (by positivity)
  have hfu : ⌊100 * q⌋ ≤ 10000 := by
    have h1 : ⌊100 * q⌋ ≤ ⌊(10000 : ℚ)⌋ := Int.floor_le_floor (by linarith)
    simpa using h1
  have hupper : roundHalfEven (100 * q) ≤ 10000 := by
    rcases lt_or_eq_of_le hfu with hlt | heq
    · omega
    · have hge : (10000 : ℚ) ≤ 100 * q := by
        have h2 : ((10000 : ℤ) : ℚ) ≤ 100 * q := by
          rw [← heq]
          exact Int.floor_le (100 * q)
        exact_mod_cast h2
      have heq2 : 100 * q = 10000 := le_antisymm (by linarith) hge
      have hcond : 100 * q - (⌊100 * q⌋ : ℚ) < 1 / 2 := by
        rw [heq2]
        norm_num
      unfold roundHalfEven
      rw [if_pos hcond]
      exact hfu
  constructor
  · have : (0 : ℚ) ≤ (roundHalfEven (100 * q) : ℚ) := by
      exact_mod_cast le_trans hfl hb.1
    unfold round2
    positivity
  · unfold round2
    rw [div_le_iff₀ (by norm_num : (0:ℚ) < 100)]
    calc (roundHalfEven (100 * q) : ℚ) ≤ 10000 := by exact_mod_cast hupper
      _ = 100 * 100 := by norm_num

/-- Claim C3: every environment score lies in [0, 100], and when both
league metric ranges are degenerate (max equals min for defensive rating
and for pace) every team's score is exactly 50.0. -/
theorem build_environment_scores_bounds (team_metrics : TeamMetrics) (teams : List String) :
    (∀ p ∈ build_environment_scores team_metrics teams, 0 ≤ p.2 ∧ p.2 ≤ 100)
    ∧ ((defenseValues team_metrics teams).max? = (defenseValues team_metrics teams).min? →
        (paceValues team_metrics teams).max? = (paceValues team_metrics teams).min? →
        ∀ p ∈ build_environment_scores team_metrics teams, p.2 = 50) := by
  constructor
  · intro p hp
    simp only [build_environment_scores, List.mem_map] at hp
    obtain ⟨t, ht, rfl⟩ := hp
    have hdmem : metricDef team_metrics t ∈ defenseValues team_metrics teams :=
      List.mem_map.mpr ⟨t, ht, rfl⟩
    have hpmem : metricPace team_metrics t ∈ paceValues team_metrics teams :=
      List.mem_map.mpr ⟨t, ht, rfl⟩
    have hd := normalize_score_bounds (metricDef team_metrics t) _ _
      (min?_getD_le hdmem) (le_max?_getD hdmem)
    have hpc := normalize_score_bounds (metricPace team_metrics t) _ _
      (min?_getD_le hpmem) (le_max?_getD hpmem)
    exact round2_bounds (by nlinarith [hd.1, hpc.1]) (by nlinarith [hd.2, hpc.2])
  · intro hdef hpace p hp
    simp only [build_environment_scores, List.mem_map] at hp
    obtain ⟨t, ht, rfl⟩ := hp
    have h1 : (defenseValues team_metrics teams).max?.getD 0
        ≤ (defenseValues team_metrics teams).min?.getD 0 := by rw [hdef]
    have h2 : (paceValues team_metrics teams).max?.getD 0
        ≤ (paceValues team_metrics teams).min?.getD 0 := by rw [hpace]
    show round2 _ = 50
    unfold normalize_score
    rw [if_pos h1, if_pos h2]
    norm_num [round2, roundHalfEven]

/-- Witness for C3: a degenerate one-team league scores exactly 50. -/
theorem build_environment_scores_bounds_witness :
    ("BOS", (50 : ℚ)) ∈ build_environment_scores [] ["BOS"]
    ∧ (("BOS", (50 : ℚ)) : String × ℚ).2 = 50
    ∧ 0 ≤ (("BOS", (50 : ℚ)) : String × ℚ).2
    ∧ (("BOS", (50 : ℚ)) : String × ℚ).2 ≤ 100 := by
  have heval : build_environment_scores [] ["BOS"] = [("BOS", 50)] := by
    simp [build_environment_scores, defenseValues, paceValues, metricDef, metricPace,
      List.min?, List.max?, normalize_score]
    norm_num [round2, roundHalfEven]
  have hmem : ("BOS", (50 : ℚ)) ∈ build_environment_scores [] ["BOS"] := by
    rw [heval]
    exact List.mem_singleton.mpr rfl
  refine ⟨hmem, (build_environment_scores_bounds [] ["BOS"]).2
    (by simp [defenseValues, metricDef, List.min?, List.max?])
    (by simp [paceValues, metricPace, List.min?, List.max?])
    ("BOS", (50 : ℚ)) hmem, ?_, ?_⟩
  · exact ((build_environment_scores_bounds [] ["BOS"]).1 ("BOS", (50 : ℚ)) hmem).1
  · exact ((build_environment_scores_bounds [] ["BOS"]).1 ("BOS", (50 : ℚ)) hmem).2

theorem lookup_eq_none_of_not_mem_keys {β : Type} {l : List (String × β)} {t : String}
    (h : t ∉ l.map Prod.fst) : l.lookup t = none := by
  induction l with
  | nil => rfl
  | cons kv rest ih =>
    rcases kv with ⟨k, v⟩
    simp only [List.map_cons, List.mem_cons, not_or] at h
    rw [List.lookup_cons, beq_eq_false_iff_ne.mpr h.1]
    exact ih h.2

theorem enumRanks_map_fst {β : Type} (n : ℕ) (l : List (String × β)) :
    ((List.enumFrom n l).map (fun p => (p.2.1, p.1))).map Prod.fst = l.map Prod.fst := by
  induction l generalizing n with
  | nil => rfl
  | cons x xs ih => simp [List.enumFrom, ih]

theorem rankRow_keys_perm (tgs : TeamGroupStat) (teams : List String)
    (group : PositionGroup) (stat : String) :
    ((rankRow tgs teams group stat).map Prod.fst).Perm teams := by
  unfold rankRow
  rw [enumRanks_map_fst]
  have h := (List.perm_insertionSort rankLE
    (teams.map (fun team => (team, statLookup tgs team group stat)))).map Prod.fst
  simpa [List.map_map, Function.comp_def] using h

/-- Counterexample to claim C4 as stated: `build_rank_tables` defaults a
missing `(team, group, stat)` cell to `0.0` and ranks every listed team,
so a team absent from the stat table still receives a rank (here rank 1
for the sole listed team over an empty table) instead of no rank. -/
theorem build_rank_tables_ranks_absent_team :
    build_rank_tables [] ["BOS"] "BOS" PositionGroup.guards "PTS" = some 1
    ∧ build_rank_tables [] ["BOS"] "BOS" PositionGroup.guards "PTS" ≠ none := by
  constructor
  · decide
  · decide

/-- Claim C4 (amended): a team absent from the *team list* passed to the
rank builder receives no rank for any `(group, stat)`; the caller then
defaults such a missing rank to 30 and tier red when building a player's
stat ranks. (Teams merely absent from the stat table but present in the
team list are ranked with a defaulted `0.0` value.) -/
theorem build_rank_tables_unlisted_team_defaults
    (tgs : TeamGroupStat) (teams : List String) (t : String)
    (group : PositionGroup) (stat : String) (ht : t ∉ teams) :
    build_rank_tables tgs teams t group stat = none
    ∧ playerStatRank (build_rank_tables tgs teams) t group stat = 30
    ∧ playerStatTier (build_rank_tables tgs teams) t group stat = MatchupTier.red := by
  have hnone : build_rank_tables tgs teams t group stat = none := by
    unfold build_rank_tables
    split_ifs with hs
    · apply lookup_eq_none_of_not_mem_keys
      intro hmem
      exact ht ((rankRow_keys_perm tgs teams group stat).mem_iff.mp hmem)
    · rfl
  refine ⟨hnone, ?_, ?_⟩
  · simp [playerStatRank, hnone]
  · simp [playerStatTier, playerStatRank, hnone, to_tier]

/-- Witness for the amended C4 at a concrete unlisted team. -/
theorem build_rank_tables_unlisted_team_defaults_witness :
    build_rank_tables [] ["BOS"] "ATL" PositionGroup.guards "PTS" = none
    ∧ playerStatRank (build_rank_tables [] ["BOS"]) "ATL" PositionGroup.guards "PTS" = 30
    ∧ playerStatTier (build_rank_tables [] ["BOS"]) "ATL" PositionGroup.guards "PTS"
      = MatchupTier.red :=
  build_rank_tables_unlisted_team_defaults [] ["BOS"] "ATL" PositionGroup.guards "PTS"
    (by decide)

/-- Claim C5, evaluated at the failing input: with a row carrying a known
start time (id "0022500002") followed by a lower-id row without one, the
dedupe keeps the lower-id row with no start time — the replacement test
`(not existing.start_time_utc and game.start_time_utc) or game.game_id <
existing.game_id` lets a bare lower id override the start-time
preference its own comment ("Prefer rows with known start time, then
lowest game id") promises. -/
theorem dedupe_games_keeps_lower_id_over_known_start :
    dedupe_games_by_matchup [c5gameWithStart, c5gameNoStart] = [c5gameNoStart] := by
  have hlt : ("0022500001" : String) < "0022500002" := by
    rw [String.lt_iff_toList_lt]
    decide
  have h2 : dedupeStep [(("CHI", "BOS"), c5gameWithStart)] c5gameNoStart
      = [(("CHI", "BOS"), c5gameNoStart)] := by
    show (if ((!truthyStr (some "2026-02-11T00:00:00Z") && truthyStr none)
          || decide (("0022500001" : String) < "0022500002")) = true then
        assocUpdate [(("CHI", "BOS"), c5gameWithStart)] ("CHI", "BOS") c5gameNoStart
      else [(("CHI", "BOS"), c5gameWithStart)])
      = [(("CHI", "BOS"), c5gameNoStart)]
    rw [decide_eq_true hlt, Bool.or_true]
    rfl
  show List.insertionSort gameLE
      (([c5gameWithStart, c5gameNoStart].foldl dedupeStep []).map Prod.snd)
      = [c5gameNoStart]
  rw [List.foldl_cons,
    show dedupeStep [] c5gameWithStart = [(("CHI", "BOS"), c5gameWithStart)] from rfl,
    List.foldl_cons, h2, List.foldl_nil]
  rfl

theorem enumRanks_map_snd {β : Type} (n : ℕ) (l : List (String × β)) :
    ((List.enumFrom n l).map (fun p => (p.2.1, p.1))).map Prod.snd
      = List.range' n l.length := by
  induction l generalizing n with
  | nil => rfl
  | cons x xs ih => simp [List.enumFrom, List.range'_succ, ih]

theorem enumRanks_lookup {β : Type} (l : List (String × β)) :
    ∀ (n : ℕ) (t : String), t ∈ l.map Prod.fst →
    ((List.enumFrom n l).map (fun p => (p.2.1, p.1))).lookup t
      = some (n + (l.map Prod.fst).indexOf t) := by
  induction l with
  | nil => intro n t ht; simp at ht
  | cons x xs ih =>
    intro n t ht
    by_cases hx : t = x.1
    · subst hx
      simp [List.enumFrom, List.lookup_cons, List.indexOf_cons_self]
    · have hmem : t ∈ xs.map Prod.fst := by
        rcases List.mem_cons.mp ht with h | h
        · exact absurd h hx
        · exact h
      simp only [List.enumFrom, List.map_cons]
      rw [List.lookup_cons, beq_eq_false_iff_ne.mpr hx]
      rw [ih (n + 1) t hmem, List.indexOf_cons_ne _ (Ne.symm hx)]
      rw [Option.some.injEq]
      omega

theorem pair_sublist_of_lt {α : Type} (l : List α) (i j : Fin l.length) (hij : i < j) :
    [l.get i, l.get j].Sublist l := by
  have hdrop : l.drop i.1 = l.get i :: l.drop (i.1 + 1) := by
    rw [List.drop_eq_getElem_cons i.isLt, List.get_eq_getElem]
  have hj2 : j.1 - (i.1 + 1) < (l.drop (i.1 + 1)).length := by
    rw [List.length_drop]
    omega
  have hmem : l.get j ∈ l.drop (i.1 + 1) := by
    have hEq : (l.drop (i.1 + 1)).get ⟨j.1 - (i.1 + 1), hj2⟩
        = l.get ⟨i.1 + 1 + (j.1 - (i.1 + 1)), by omega⟩ := by
      rw [List.get_eq_getElem, List.get_eq_getElem]
      exact List.getElem_drop l
    have hidx : (⟨i.1 + 1 + (j.1 - (i.1 + 1)), by omega⟩ : Fin l.length) = j := by
      apply Fin.ext
      simp
      omega
    rw [hidx] at hEq
    exact hEq ▸ List.get_mem _ _ _
  have h1 : [l.get i, l.get j].Sublist (l.get i :: l.drop (i.1 + 1)) :=
    List.cons_sublist_cons.mpr (List.singleton_sublist.mpr hmem)
  have h2 : (l.get i :: l.drop (i.1 + 1)).Sublist l := by
    rw [← hdrop]
    exact List.drop_sublist _ _
  exact h1.trans h2

theorem indexOf_lt_of_pair_sublist {α : Type} [DecidableEq α] {a b : α} :
    ∀ {l : List α}, [a, b].Sublist l → l.Nodup → l.indexOf a < l.indexOf b := by
  intro l
  induction l with
  | nil => intro h hnd; simp at h
  | cons c rest ih =>
    intro h hnd
    rw [List.nodup_cons] at hnd
    cases h with
    | cons _ h2 =>
      have ha : a ∈ rest := h2.subset (by simp)
      have hb : b ∈ rest := h2.subset (by simp)
      have hac : c ≠ a := fun he => hnd.1 (he ▸ ha)
      have hbc : c ≠ b := fun he => hnd.1 (he ▸ hb)
      rw [List.indexOf_cons_ne _ hac, List.indexOf_cons_ne _ hbc]
      exact Nat.succ_lt_succ (ih h2 hnd.2)
    | cons₂ _ h2 =>
      have hb : b ∈ rest := List.singleton_sublist.mp h2
      have hba : a ≠ b := fun he => hnd.1 (he ▸ hb)
      rw [List.indexOf_cons_self, List.indexOf_cons_ne _ hba]
      exact Nat.succ_pos _

/-- Claim C1: for every stat table and duplicate-free team list, each
supported `(group, stat)` rank row assigns the listed teams exactly the
ranks 1..teamCount (a permutation, each rank within [1, team count]),
ordered by strictly descending allowed value, with ties broken by the
original team enumeration order (stable sort), not a value- or name-based
re-ordering. -/
theorem build_rank_tables_permutation_stable
    (tgs : TeamGroupStat) (teams : List String) (group : PositionGroup) (stat : String)
    (hnd : teams.Nodup) (hstat : stat ∈ SUPPORTED_STATS) :
    ((rankRow tgs teams group stat).map Prod.snd = List.range' 1 teams.length)
    ∧ ((rankRow tgs teams group stat).map Prod.fst).Perm teams
    ∧ (∀ t ∈ teams, ∃ r, build_rank_tables tgs teams t group stat = some r
        ∧ 1 ≤ r ∧ r ≤ teams.length)
    ∧ (∀ i j : Fin teams.length,
        (statLookup tgs (teams.get j) group stat < statLookup tgs (teams.get i) group stat →
          ∀ ri rj, build_rank_tables tgs teams (teams.get i) group stat = some ri →
            build_rank_tables tgs teams (teams.get j) group stat = some rj → ri < rj)
        ∧ (statLookup tgs (teams.get i) group stat = statLookup tgs (teams.get j) group stat →
            i < j →
          ∀ ri rj, build_rank_tables tgs teams (teams.get i) group stat = some ri →
            build_rank_tables tgs teams (teams.get j) group stat = some rj → ri < rj)) := by
  classical
  set f : String → String × ℚ := fun team => (team, statLookup tgs team group stat) with hf
  set vs : List (String × ℚ) := teams.map f with hvs
  set sorted : List (String × ℚ) := List.insertionSort rankLE vs with hsorted
  have hperm : sorted.Perm vs := List.perm_insertionSort rankLE vs
  have hsort : List.Sorted rankLE sorted := List.sorted_insertionSort rankLE vs
  have hvs_fst : vs.map Prod.fst = teams := by
    simp [hvs, hf, List.map_map, Function.comp_def]
  have hkeys_perm : (sorted.map Prod.fst).Perm teams := by
    have h := hperm.map Prod.fst
    rwa [hvs_fst] at h
  have hkeys_nd : (sorted.map Prod.fst).Nodup := hkeys_perm.nodup_iff.mpr hnd
  have hlen : sorted.length = teams.length := by
    rw [hsorted, List.length_insertionSort, hvs, List.length_map]
  have hval : ∀ p ∈ sorted, p.2 = statLookup tgs p.1 group stat := by
    intro p hp
    have hp2 : p ∈ vs := hperm.subset hp
    obtain ⟨u, _, rfl⟩ := List.mem_map.mp hp2
    rfl
  have hrr : rankRow tgs teams group stat
      = (List.enumFrom 1 sorted).map (fun p => (p.2.1, p.1)) := rfl
  have hkeys_rr : (rankRow tgs teams group stat).map Prod.fst = sorted.map Prod.fst := by
    rw [hrr]
    exact enumRanks_map_fst 1 sorted
  have hbrt : ∀ t ∈ teams, build_rank_tables tgs teams t group stat
      = some (1 + (sorted.map Prod.fst).indexOf t) := by
    intro t ht
    have hmem : t ∈ sorted.map Prod.fst := hkeys_perm.mem_iff.mpr ht
    unfold build_rank_tables
    rw [if_pos hstat, hrr]
    exact enumRanks_lookup sorted 1 t hmem
  have hentry : ∀ (t : String), t ∈ sorted.map Prod.fst →
      ∃ hi : (sorted.map Prod.fst).indexOf t < sorted.length,
        sorted.get ⟨(sorted.map Prod.fst).indexOf t, hi⟩
          = (t, statLookup tgs t group stat) := by
    intro t ht
    have hi0 : (sorted.map Prod.fst).indexOf t < (sorted.map Prod.fst).length :=
      List.indexOf_lt_length.mpr ht
    have hi : (sorted.map Prod.fst).indexOf t < sorted.length := by
      rwa [List.length_map] at hi0
    refine ⟨hi, ?_⟩
    have h1 : (sorted.map Prod.fst).get ⟨(sorted.map Prod.fst).indexOf t, hi0⟩ = t := by
      rw [List.get_eq_getElem]
      exact List.getElem_indexOf hi0
    have h2 : (sorted.map Prod.fst).get ⟨(sorted.map Prod.fst).indexOf t, hi0⟩
        = (sorted.get ⟨(sorted.map Prod.fst).indexOf t, hi⟩).1 := by
      rw [List.get_eq_getElem, List.get_eq_getElem]
      exact List.getElem_map Prod.fst
    have hfst : (sorted.get ⟨(sorted.map Prod.fst).indexOf t, hi⟩).1 = t := by
      rw [← h2, h1]
    have hsnd := hval _ (List.get_mem sorted _ hi)
    have := Prod.mk.eta (p := sorted.get ⟨(sorted.map Prod.fst).indexOf t, hi⟩)
    rw [← this, hfst, hsnd, hfst]
  refine ⟨?_, ?_, ?_, ?_⟩
  · rw [hrr, enumRanks_map_snd, hlen]
  · rw [hkeys_rr]
    exact hkeys_perm
  · intro t ht
    refine ⟨1 + (sorted.map Prod.fst).indexOf t, hbrt t ht, Nat.le_add_right 1 _, ?_⟩
    have hmem : t ∈ sorted.map Prod.fst := hkeys_perm.mem_iff.mpr ht
    have hi0 : (sorted.map Prod.fst).indexOf t < (sorted.map Prod.fst).length :=
      List.indexOf_lt_length.mpr hmem
    rw [List.length_map, hlen] at hi0
    omega
  · intro i j
    have hti : teams.get i ∈ teams := List.get_mem teams _ _
    have htj : teams.get j ∈ teams := List.get_mem teams _ _
    have hmi : teams.get i ∈ sorted.map Prod.fst := hkeys_perm.mem_iff.mpr hti
    have hmj : teams.get j ∈ sorted.map Prod.fst := hkeys_perm.mem_iff.mpr htj
    constructor
    · intro hlt ri rj hri hrj
      rw [hbrt _ hti] at hri
      rw [hbrt _ htj] at hrj
      have hri2 := Option.some.inj hri
      have hrj2 := Option.some.inj hrj
      have hne : teams.get i ≠ teams.get j := by
        intro he
        rw [he] at hlt
        exact lt_irrefl _ hlt
      obtain ⟨hii, hei⟩ := hentry (teams.get i) hmi
      obtain ⟨hij2, hej⟩ := hentry (teams.get j) hmj
      rcases lt_trichotomy ((sorted.map Prod.fst).indexOf (teams.get i))
          ((sorted.map Prod.fst).indexOf (teams.get j)) with h | h | h
      · omega
      · exfalso
        apply hne
        have hgi : sorted.get ⟨(sorted.map Prod.fst).indexOf (teams.get i), hii⟩
            = sorted.get ⟨(sorted.map Prod.fst).indexOf (teams.get j), hij2⟩ := by
          congr 1
          exact Fin.ext h
        rw [hei, hej] at hgi
        exact congrArg Prod.fst hgi
      · exfalso
        have hrel := hsort.rel_get_of_lt
          (a := ⟨(sorted.map Prod.fst).indexOf (teams.get j), hij2⟩)
          (b := ⟨(sorted.map Prod.fst).indexOf (teams.get i), hii⟩) h
        rw [hei, hej] at hrel
        have hle : statLookup tgs (teams.get i) group stat
            ≤ statLookup tgs (teams.get j) group stat := hrel
        exact absurd hlt (not_lt.mpr hle)
    · intro heq hij ri rj hri hrj
      rw [hbrt _ hti] at hri
      rw [hbrt _ htj] at hrj
      have hri2 := Option.some.inj hri
      have hrj2 := Option.some.inj hrj
      have hne : teams.get i ≠ teams.get j := by
        intro he
        exact absurd (hnd.get_inj_iff.mp he) (Fin.ne_of_lt hij)
      have hlenvs : vs.length = teams.length := by rw [hvs, List.length_map]
      have hgi : vs.get (Fin.cast hlenvs.symm i) = f (teams.get i) := by
        show (teams.map f).get (Fin.cast hlenvs.symm i) = f (teams.get i)
        rw [List.get_eq_getElem, List.get_eq_getElem]
        exact List.getElem_map f
      have hgj : vs.get (Fin.cast hlenvs.symm j) = f (teams.get j) := by
        show (teams.map f).get (Fin.cast hlenvs.symm j) = f (teams.get j)
        rw [List.get_eq_getElem, List.get_eq_getElem]
        exact List.getElem_map f
      have hij2 : Fin.cast hlenvs.symm i < Fin.cast hlenvs.symm j := by
        rw [Fin.lt_def]
        exact hij
      have hps : [vs.get (Fin.cast hlenvs.symm i), vs.get (Fin.cast hlenvs.symm j)].Sublist vs :=
        pair_sublist_of_lt vs _ _ hij2
      have hle : rankLE (vs.get (Fin.cast hlenvs.symm i)) (vs.get (Fin.cast hlenvs.symm j)) := by
        rw [hgi, hgj]
        exact le_of_eq heq.symm
      have hss := List.pair_sublist_insertionSort hle hps
      have hkss : [teams.get i, teams.get j].Sublist (sorted.map Prod.fst) := by
        have hmap := hss.map Prod.fst
        rw [hgi, hgj] at hmap
        simpa [hf] using hmap
      have hout := indexOf_lt_of_pair_sublist hkss hkeys_nd
      omega

/-- Witness for C1 at a concrete two-team table. -/
theorem build_rank_tables_permutation_stable_witness :
    (rankRow [("CHI", [(PositionGroup.guards, [("PTS", (25 : ℚ))])])]
        ["BOS", "CHI"] PositionGroup.guards "PTS").map Prod.snd = List.range' 1 2 :=
  (build_rank_tables_permutation_stable
      [("CHI", [(PositionGroup.guards, [("PTS", (25 : ℚ))])])]
      ["BOS", "CHI"] PositionGroup.guards "PTS" (by decide) (by decide)).1

theorem dedupKeepLast_subset : ∀ (l : List LogRow), ∀ r ∈ dedupKeepLast l, r ∈ l := by
  intro l
  induction l with
  | nil => intro r hr; exact absurd hr (by simp [dedupKeepLast])
  | cons x xs ih =>
    intro r hr
    unfold dedupKeepLast at hr
    split_ifs at hr with h
    · exact List.mem_cons_of_mem x (ih r hr)
    · rcases List.mem_cons.mp hr with rfl | h2
      · exact List.mem_cons_self _ _
      · exact List.mem_cons_of_mem x (ih r h2)

theorem filterMap_id_all_some :
    ∀ (l : List (Option ℚ)), (∀ x ∈ l, x.isSome) →
      l.filterMap id = l.map (fun x => x.getD 0) := by
  intro l
  induction l with
  | nil => intro _; rfl
  | cons x xs ih =>
    intro h
    have hx := h x (List.mem_cons_self x xs)
    cases hxe : x with
    | none =>
      rw [hxe] at hx
      simp at hx
    | some v =>
      subst hxe
      simp only [List.filterMap_cons, id_eq, List.map_cons, Option.getD_some]
      rw [ih (fun y hy => h y (List.mem_cons_of_mem _ hy))]

theorem sumMinCount1_all_some {l : List (Option ℚ)} (h : ∀ x ∈ l, x.isSome)
    (hne : l ≠ []) :
    sumMinCount1 l = some ((l.map (fun x => x.getD 0)).sum) := by
  unfold sumMinCount1
  rw [filterMap_id_all_some l h]
  rw [if_neg]
  intro hemp
  exact hne (List.map_eq_nil_iff.mp (List.isEmpty_iff.mp hemp))

theorem statTotal_all_some (cols : LogCols) (rows : List LogRow) (pid : ℤ)
    (stat : String) (hcol : cols.has_stat stat = true)
    (hne : playerRows rows pid ≠ [])
    (hsome : ∀ r ∈ playerRows rows pid, (r.stat stat).isSome) :
    statTotal cols rows pid stat
      = some (((playerRows rows pid).map (fun r => (r.stat stat).getD 0)).sum) := by
  unfold statTotal
  rw [if_pos hcol]
  rw [sumMinCount1_all_some (fun x hx => ?_) (fun hemp => hne (List.map_eq_nil_iff.mp hemp))]
  · rw [List.map_map]
    rfl
  · obtain ⟨r, hr, rfl⟩ := List.mem_map.mp hx
    exact hsome r hr

theorem gamesPlayed_eq_length {rows : List LogRow} {pid : ℤ}
    (hne : playerRows rows pid ≠ []) :
    gamesPlayed rows pid = (playerRows rows pid).length := by
  unfold gamesPlayed
  exact Nat.max_eq_left
    (Nat.one_le_iff_ne_zero.mpr (fun h0 => hne (List.length_eq_zero.mp h0)))

theorem statAvg_all_some (cols : LogCols) (rows : List LogRow) (pid : ℤ)
    (stat : String) (hcol : cols.has_stat stat = true)
    (hne : playerRows rows pid ≠ [])
    (hsome : ∀ r ∈ playerRows rows pid, (r.stat stat).isSome) :
    statAvg cols rows pid stat
      = some ((((playerRows rows pid).map (fun r => (r.stat stat).getD 0)).sum)
          / ((playerRows rows pid).length : ℚ)) := by
  unfold statAvg
  rw [statTotal_all_some cols rows pid stat hcol hne hsome, gamesPlayed_eq_length hne]
  rfl

theorem pctOf_totals (cols : LogCols) (rows : List LogRow) (pid : ℤ)
    (mstat astat : String) (hmcol : cols.has_stat mstat = true)
    (hacol : cols.has_stat astat = true) (hne : playerRows rows pid ≠ [])
    (hsome : ∀ r ∈ playerRows rows pid, (r.stat mstat).isSome ∧ (r.stat astat).isSome) :
    pctOf (statTotal cols rows pid mstat) (statTotal cols rows pid astat)
      = some (if 0 < ((playerRows rows pid).map (fun r => (r.stat astat).getD 0)).sum
          then (((playerRows rows pid).map (fun r => (r.stat mstat).getD 0)).sum)
            / (((playerRows rows pid).map (fun r => (r.stat astat).getD 0)).sum)
          else 0) := by
  rw [statTotal_all_some cols rows pid mstat hmcol hne (fun r hr => (hsome r hr).1),
    statTotal_all_some cols rows pid astat hacol hne (fun r hr => (hsome r hr).2)]
  show (if 0 < ((playerRows rows pid).map (fun r => (r.stat astat).getD 0)).sum
      then some ((((playerRows rows pid).map (fun r => (r.stat mstat).getD 0)).sum)
        / (((playerRows rows pid).map (fun r => (r.stat astat).getD 0)).sum))
      else some 0)
    = some (if 0 < ((playerRows rows pid).map (fun r => (r.stat astat).getD 0)).sum
      then (((playerRows rows pid).map (fun r => (r.stat mstat).getD 0)).sum)
        / (((playerRows rows pid).map (fun r => (r.stat astat).getD 0)).sum)
      else 0)
  split_ifs with h <;> rfl

/-- Claim C8: with the required columns present, every produced baseline
row belongs to a player with at least one kept row (rows lacking minutes,
a player id or a date are dropped first, and the clipped games-played
count equals the kept-row count); each averaged stat with present cell
values equals the stat's sum over the player's kept rows divided by games
played; each shooting percentage equals sum(makes)/sum(attempts) when the
attempt total is positive and 0 otherwise; and when required columns are
absent the builder returns an empty result instead of failing. -/
theorem build_player_baselines_spec (cols : LogCols) (rows : List LogRow) :
    (requiredColsPresent cols = false → build_player_baselines_from_logs cols rows = [])
    ∧ (∀ b ∈ build_player_baselines_from_logs cols rows,
        (1 ≤ (playerRows rows b.player_id).length
          ∧ gamesPlayed rows b.player_id = (playerRows rows b.player_id).length)
        ∧ (∀ stat ∈ AVG_STAT_NAMES, cols.has_stat stat = true →
            (∀ r ∈ playerRows rows b.player_id, (r.stat stat).isSome) →
            b.stat stat = some
              ((((playerRows rows b.player_id).map (fun r => (r.stat stat).getD 0)).sum)
                / ((playerRows rows b.player_id).length : ℚ)))
        ∧ (cols.has_stat "FGM" = true → cols.has_stat "FGA" = true →
            (∀ r ∈ playerRows rows b.player_id,
              (r.stat "FGM").isSome ∧ (r.stat "FGA").isSome) →
            b.fg_pct = some
              (if 0 < ((playerRows rows b.player_id).map (fun r => (r.stat "FGA").getD 0)).sum
               then (((playerRows rows b.player_id).map (fun r => (r.stat "FGM").getD 0)).sum)
                 / (((playerRows rows b.player_id).map (fun r => (r.stat "FGA").getD 0)).sum)
               else 0))
        ∧ (cols.has_stat "FG3M" = true → cols.has_stat "FG3A" = true →
            (∀ r ∈ playerRows rows b.player_id,
              (r.stat "FG3M").isSome ∧ (r.stat "FG3A").isSome) →
            b.fg3_pct = some
              (if 0 < ((playerRows rows b.player_id).map (fun r => (r.stat "FG3A").getD 0)).sum
               then (((playerRows rows b.player_id).map (fun r => (r.stat "FG3M").getD 0)).sum)
                 / (((playerRows rows b.player_id).map (fun r => (r.stat "FG3A").getD 0)).sum)
               else 0))
        ∧ (cols.has_stat "FTM" = true → cols.has_stat "FTA" = true →
            (∀ r ∈ playerRows rows b.player_id,
              (r.stat "FTM").isSome ∧ (r.stat "FTA").isSome) →
            b.ft_pct = some
              (if 0 < ((playerRows rows b.player_id).map (fun r => (r.stat "FTA").getD 0)).sum
               then (((playerRows rows b.player_id).map (fun r => (r.stat "FTM").getD 0)).sum)
                 / (((playerRows rows b.player_id).map (fun r => (r.stat "FTA").getD 0)).sum)
               else 0))) := by
  constructor
  · intro h
    unfold build_player_baselines_from_logs
    rw [h]
    split_ifs with h1 h2 h3
    · rfl
    · rfl
    · rfl
    · simp at h2
  · intro b hb
    unfold build_player_baselines_from_logs at hb
    split_ifs at hb with h1 h2 h3
    · simp at hb
    · simp at hb
    · simp at hb
    · obtain ⟨r, hrmem, rfl⟩ := List.mem_map.mp hb
      have hrf : r ∈ filteredRows rows := by
        have hs := dedupKeepLast_subset _ r hrmem
        exact (List.mem_insertionSort dateLE).mp hs
      have hpid : r.player_id = some (r.player_id.getD 0) := by
        have hsome : r.player_id.isSome := by
          have hfl := (List.mem_filter.mp hrf).2
          simp only [Bool.and_eq_true] at hfl
          exact hfl.1.1
        cases hp : r.player_id with
        | none =>
          rw [hp] at hsome
          simp at hsome
        | some v => rfl
      have hrp : r ∈ playerRows rows (r.player_id.getD 0) := by
        unfold playerRows
        refine List.mem_filter.mpr ⟨hrf, ?_⟩
        simp only [decide_eq_true_eq]
        exact hpid
      have hne : playerRows rows (r.player_id.getD 0) ≠ [] := List.ne_nil_of_mem hrp
      refine ⟨⟨?_, ?_⟩, ?_, ?_, ?_, ?_⟩
      · exact List.length_pos.mpr hne
      · exact gamesPlayed_eq_length hne
      · intro stat hstat hcol hsome
        fin_cases hstat <;>
          exact statAvg_all_some cols rows _ _ hcol hne hsome
      · intro hmcol hacol hsome
        exact pctOf_totals cols rows _ "FGM" "FGA" hmcol hacol hne hsome
      · intro hmcol hacol hsome
        exact pctOf_totals cols rows _ "FG3M" "FG3A" hmcol hacol hne hsome
      · intro hmcol hacol hsome
        exact pctOf_totals cols rows _ "FTM" "FTA" hmcol hacol hne hsome

/-- Witness for C8 at the concrete two-game input. -/
theorem build_player_baselines_spec_witness :
    1 ≤ (playerRows c8rows c8head.player_id).length
    ∧ c8head.stat "PTS" = some
        ((((playerRows c8rows c8head.player_id).map
            (fun r => (r.stat "PTS").getD 0)).sum)
          / ((playerRows c8rows c8head.player_id).length : ℚ)) := by
  have hlen : (build_player_baselines_from_logs c8cols c8rows).length = 1 := by decide
  have hne2 : build_player_baselines_from_logs c8cols c8rows ≠ [] := by
    intro h
    rw [h] at hlen
    simp at hlen
  have hmem : c8head ∈ build_player_baselines_from_logs c8cols c8rows := by
    rcases hb : build_player_baselines_from_logs c8cols c8rows with _ | ⟨a, t⟩
    · exact absurd hb hne2
    · unfold c8head
      rw [hb]
      exact List.mem_cons_self a t
  have hmain := (build_player_baselines_spec c8cols c8rows).2 c8head hmem
  exact ⟨hmain.1.1, hmain.2.1 "PTS" (by decide) (by rfl) (by decide)⟩

end NBA
